import Mathlib

/-!
Verification of the photo-intelligence pipeline
(scripts/photo-intelligence): perceptual-hash Hamming distance
(ml_services/perceptual_hash.py), the smart-crop geometry solver
(ml_services/crop_calculator.py), the three clustering passes and the
batch orchestrator (pipeline.py).

Modelling conventions:
* Python `float` arithmetic is modelled over `ℚ` (all quantities involved
  are small integer-derived values; float literals 0.1, 0.15, 0.2, 0.05,
  0.9, 0.3 are modelled by the exact rationals the source denotes).
* Python `int(x)` (truncation toward zero) is `pyInt`.
* Python `//` on non-negative ints is `Int.fdiv` (floor division).
* Detection boxes carry `ℤ` coordinates: every detector in the source
  (face_detection.py, person_detection.py) builds boxes with `int(...)`.
* Python's unbounded `int` is `ℤ` (thresholds), non-negative counts `ℕ`.
-/

/-- Python `int()` applied to a float: truncation toward zero. -/
def pyInt (q : ℚ) : ℤ := if 0 ≤ q then ⌊q⌋ else ⌈q⌉

/-- `max` with key, Python semantics: the fold keeps the current best and
replaces it only on a strictly larger key, so the first maximiser wins.
`pyMaxBy k x xs` is `max([x] + xs, key=k)`. -/
def pyMaxBy {α : Type} (k : α → ℚ) (x : α) (xs : List α) : α :=
  xs.foldl (fun best c => if k best < k c then c else best) x

theorem pyInt_intCast (n : ℤ) : pyInt (n : ℚ) = n := by
  unfold pyInt
  split <;> simp

theorem pyInt_le_max (q : ℚ) : (pyInt q : ℚ) ≤ max 0 q := by
  unfold pyInt
  split
  · exact le_max_of_le_right (Int.floor_le q)
  · next h =>
      have h' : ⌈q⌉ ≤ (0 : ℤ) := Int.ceil_le.mpr (by push_cast; linarith)
      exact le_max_of_le_left (by exact_mod_cast h')

theorem lt_pyInt_add_one (q : ℚ) : q - 1 < (pyInt q : ℚ) := by
  unfold pyInt
  split
  · exact Int.sub_one_lt_floor q
  · have := Int.le_ceil q
    linarith

theorem pyInt_le_of_nonneg {q : ℚ} (h : 0 ≤ q) : (pyInt q : ℚ) ≤ q := by
  unfold pyInt
  rw [if_pos h]
  exact Int.floor_le q

theorem pyInt_nonneg {q : ℚ} (h : 0 ≤ q) : 0 ≤ pyInt q := by
  unfold pyInt
  rw [if_pos h]
  exact Int.floor_nonneg.mpr h

theorem le_pyInt_of_le {n : ℤ} {q : ℚ} (h : (n : ℚ) ≤ q - 1) :
    n ≤ pyInt q := by
  have := lt_pyInt_add_one q
  have : (n : ℚ) < (pyInt q : ℚ) := lt_of_le_of_lt h (by linarith)
  exact_mod_cast le_of_lt this

/-! ### perceptual_hash.py -/

/-- Value of one hexadecimal digit, as accepted by Python `int(s, 16)`. -/
def hexDigitVal? (c : Char) : Option ℕ :=
  if '0' ≤ c ∧ c ≤ '9' then some (c.toNat - '0'.toNat)
  else if 'a' ≤ c ∧ c ≤ 'f' then some (c.toNat - 'a'.toNat + 10)
  else if 'A' ≤ c ∧ c ≤ 'F' then some (c.toNat - 'A'.toNat + 10)
  else none

/-- Python `int(s, 16)` on a plain string of hex digits: `none` models the
`ValueError` raised on the empty string or any non-hex character (the
source only ever feeds hash strings or the `""` failure sentinel of
`compute_hashes`, so prefixes/signs/underscores are out of scope). -/
def hexToNat? (s : String) : Option ℕ :=
  match s.data with
  | [] => none
  | ds => ds.foldl (fun acc c => acc.bind fun n =>
      (hexDigitVal? c).map fun d => 16 * n + d) (some 0)

/-- Bit-population count; the fuel argument makes the recursion structural
(`n` itself is always enough fuel since `n < 2 ^ n`). -/
def popCountAux : ℕ → ℕ → ℕ
  | 0, _ => 0
  | fuel + 1, n => if n = 0 then 0 else n % 2 + popCountAux fuel (n / 2)

/-- Number of set bits of `n`: `bin(n).count("1")`. -/
def popCount (n : ℕ) : ℕ := popCountAux n n

/-- `hamming_distance` (perceptual_hash.py lines 43-65): parse both hex
strings, xor, count set bits; any parse failure is caught and yields the
sentinel 999. -/
def hamming_distance (hash1 hash2 : String) : ℕ :=
  match hexToNat? hash1, hexToNat? hash2 with
  | some int1, some int2 => popCount (int1 ^^^ int2)
  | _, _ => 999

/-- `are_similar` (perceptual_hash.py lines 68-87); the unused `hash_type`
parameter is dropped. The threshold is a Python int, hence `ℤ`. -/
def are_similar (hash1 hash2 : String) (threshold : ℤ) : Bool :=
  (hamming_distance hash1 hash2 : ℤ) ≤ threshold

theorem popCountAux_congr : ∀ (f g n : ℕ), n < 2 ^ f → n < 2 ^ g →
    popCountAux f n = popCountAux g n := by
  intro f
  induction f with
  | zero =>
    intro g n hf _
    interval_cases n
    cases g <;> simp [popCountAux]
  | succ f ih =>
    intro g n hf hg
    cases g with
    | zero =>
      interval_cases n
      simp [popCountAux]
    | succ g =>
      by_cases hn : n = 0
      · simp [popCountAux, hn]
      · simp only [popCountAux, if_neg hn]
        have hdf : n / 2 < 2 ^ f := by
          rw [Nat.div_lt_iff_lt_mul (by norm_num : 0 < 2)]
          calc n < 2 ^ (f + 1) := hf
            _ = 2 ^ f * 2 := by ring
        have hdg : n / 2 < 2 ^ g := by
          rw [Nat.div_lt_iff_lt_mul (by norm_num : 0 < 2)]
          calc n < 2 ^ (g + 1) := hg
            _ = 2 ^ g * 2 := by ring
        rw [ih g (n / 2) hdf hdg]

theorem popCount_zero : popCount 0 = 0 := rfl

theorem popCount_xor_comm (a b : ℕ) : popCount (a ^^^ b) = popCount (b ^^^ a) := by
  rw [Nat.xor_comm]

theorem hamming_comm (h1 h2 : String) :
    hamming_distance h1 h2 = hamming_distance h2 h1 := by
  unfold hamming_distance
  cases hexToNat? h1 <;> cases hexToNat? h2 <;> simp [popCount_xor_comm]

theorem hamming_self_of_valid {h : String} {n : ℕ} (hv : hexToNat? h = some n) :
    hamming_distance h h = 0 := by
  unfold hamming_distance
  rw [hv]
  simp [Nat.xor_self, popCount_zero]

theorem hamming_invalid_left {h1 : String} (hv : hexToNat? h1 = none) (h2 : String) :
    hamming_distance h1 h2 = 999 := by
  unfold hamming_distance
  rw [hv]

/-! ### crop_calculator.py -/

/-- Pixel bounding box `{x, y, width, height}`. Coordinates are `ℤ`:
every detector in the source builds boxes with `int(...)`. -/
structure Box where
  x : ℤ
  y : ℤ
  width : ℤ
  height : ℤ
deriving DecidableEq, Repr

/-- A face or person detection as consumed by `calculate_smart_crop`. -/
structure Detection where
  box : Box
  confidence : ℚ
  quality_score : ℚ
deriving DecidableEq, Repr

/-- Integer crop rectangle, the `crop_box` of the result. -/
structure CropBox where
  x : ℤ
  y : ℤ
  width : ℤ
  height : ℤ
deriving DecidableEq, Repr

/-- Result dictionary of `calculate_smart_crop`. -/
structure CropResult where
  crop_box : CropBox
  confidence : ℚ
  method : String
  reason : String
deriving DecidableEq, Repr

/-- Lines 39-57 of crop_calculator.py: the maximal crop dimensions
`(crop_width, crop_height)` for target ratio `aw:ah` in an
`image_width × image_height` image. -/
def cropDims (aw ah : ℚ) (image_width image_height : ℕ) : ℤ × ℤ :=
  let target_aspect := aw / ah
  if (image_width : ℚ) / (image_height : ℚ) > target_aspect then
    let crop_height : ℤ := image_height
    let crop_width : ℤ := min (pyInt ((crop_height : ℚ) * target_aspect)) (image_width : ℤ)
    (crop_width, crop_height)
  else
    let crop_width : ℤ := image_width
    let crop_height : ℤ := min (pyInt ((crop_width : ℚ) / target_aspect)) (image_height : ℤ)
    (crop_width, crop_height)

/-- Lines 59-132: the face strategy. `f0 :: fs` is the non-empty `faces`
list; `cw, ch` the precomputed maximal crop dimensions. -/
def faceCrop (f0 : Detection) (fs : List Detection) (cw ch : ℤ)
    (image_width image_height : ℕ) (headroom_ratio : ℚ) : CropResult :=
  let faces := f0 :: fs
  let best_face := pyMaxBy (fun f => f.quality_score * f.confidence) f0 fs
  let face_box := best_face.box
  let face_center_x : ℚ := (face_box.x : ℚ) + (face_box.width : ℚ) / 2
  let face_center_y : ℚ := (face_box.y : ℚ) + (face_box.height : ℚ) / 2
  let headroom : ℤ := pyInt ((face_box.height : ℚ) * headroom_ratio)
  let adjusted_center_y : ℚ := face_center_y - (headroom : ℚ)
  let ideal_crop_x : ℚ := face_center_x - (cw : ℚ) / 2
  let ideal_crop_y : ℚ := adjusted_center_y - (ch : ℚ) / 2
  let ideal : ℚ × ℚ :=
    if 1 < faces.length then
      let min_x : ℤ := (fs.map (fun f => f.box.x)).foldl min f0.box.x
      let max_x : ℤ := (fs.map (fun f => f.box.x + f.box.width)).foldl max
        (f0.box.x + f0.box.width)
      let min_y : ℤ := (fs.map (fun f => f.box.y)).foldl min f0.box.y
      let max_y : ℤ := (fs.map (fun f => f.box.y + f.box.height)).foldl max
        (f0.box.y + f0.box.height)
      let group_center_x : ℚ := ((min_x : ℚ) + (max_x : ℚ)) / 2
      let group_center_y : ℚ := ((min_y : ℚ) + (max_y : ℚ)) / 2 -
        (pyInt ((face_box.height : ℚ) * headroom_ratio) : ℚ)
      (group_center_x - (cw : ℚ) / 2, group_center_y - (ch : ℚ) / 2)
    else (ideal_crop_x, ideal_crop_y)
  let crop_x : ℤ := max 0 (min ((image_width : ℤ) - cw) (pyInt ideal.1))
  let face_top_with_headroom : ℚ := (face_box.y : ℚ) - (headroom : ℚ)
  let min_crop_y_for_face : ℚ := max 0 (face_top_with_headroom - (ch : ℚ) * (1/10))
  let face_bottom : ℚ := (face_box.y : ℚ) + (face_box.height : ℚ)
  let max_crop_y_for_face : ℚ := min ((image_height : ℚ) - (ch : ℚ))
    (face_bottom - (ch : ℚ) * (9/10))
  let ideal_crop_y_int : ℤ := pyInt ideal.2
  let crop_y0 : ℤ :=
    if (ideal_crop_y_int : ℚ) < min_crop_y_for_face then pyInt min_crop_y_for_face
    else if (ideal_crop_y_int : ℚ) > max_crop_y_for_face then pyInt max_crop_y_for_face
    else ideal_crop_y_int
  let crop_y : ℤ := max 0 (min ((image_height : ℤ) - ch) crop_y0)
  { crop_box := { x := crop_x, y := crop_y, width := cw, height := ch }
    confidence := best_face.confidence * best_face.quality_score
    method := "face"
    reason := "Cropped around " ++ toString faces.length ++
      " face(s), centered on highest quality face" }

/-- Lines 134-190: the person strategy. `p0 :: ps` is the non-empty
`persons` list (and `faces` was empty). All y-computations stay in `ℤ`
because boxes are integer-valued and each step is an int or an
int-producing `int(...)`. -/
def personCrop (p0 : Detection) (ps : List Detection) (cw ch : ℤ)
    (image_width image_height : ℕ) : CropResult :=
  let best_person := pyMaxBy (fun p => p.quality_score * p.confidence) p0 ps
  let person_box := best_person.box
  let person_center_x : ℚ := (person_box.x : ℚ) + (person_box.width : ℚ) / 2
  let ideal_crop_x : ℚ := person_center_x - (cw : ℚ) / 2
  let crop_x : ℤ := max 0 (min ((image_width : ℤ) - cw) (pyInt ideal_crop_x))
  let person_top : ℤ := person_box.y
  let head_target_y_in_crop : ℤ := pyInt ((ch : ℚ) * (20/100))
  let ideal_crop_y : ℤ := person_top - head_target_y_in_crop
  let crop_y1 : ℤ := max 0 (min ((image_height : ℤ) - ch) ideal_crop_y)
  let crop_y2 : ℤ :=
    if crop_y1 ≥ person_top then
      min (max 0 (person_top - pyInt ((ch : ℚ) * (5/100)))) ((image_height : ℤ) - ch)
    else crop_y1
  let crop_y3 : ℤ :=
    if ¬ (crop_y2 ≤ person_top ∧ person_top ≤ crop_y2 + ch) then
      min (max 0 (person_top - pyInt ((ch : ℚ) * (1/10)))) ((image_height : ℤ) - ch)
    else crop_y2
  { crop_box := { x := crop_x, y := crop_y3, width := cw, height := ch }
    confidence := best_person.confidence * best_person.quality_score
    method := "person"
    reason := "Cropped around person (no faces detected)" }

/-- Lines 192-206: the saliency (center-crop) fallback. -/
def centerCrop (cw ch : ℤ) (image_width image_height : ℕ) : CropResult :=
  { crop_box := { x := Int.fdiv ((image_width : ℤ) - cw) 2
                  y := Int.fdiv ((image_height : ℤ) - ch) 2
                  width := cw, height := ch }
    confidence := 3/10
    method := "saliency"
    reason := "No faces or persons detected, using center crop" }

/-- `calculate_smart_crop` (crop_calculator.py lines 11-206). The
`image_path` argument is unused by the source and dropped. -/
def calculate_smart_crop (aspect_ratio : ℚ × ℚ) (faces persons : List Detection)
    (image_width image_height : ℕ) (headroom_ratio : ℚ) : CropResult :=
  let dims := cropDims aspect_ratio.1 aspect_ratio.2 image_width image_height
  match faces with
  | f0 :: fs => faceCrop f0 fs dims.1 dims.2 image_width image_height headroom_ratio
  | [] =>
    match persons with
    | p0 :: ps => personCrop p0 ps dims.1 dims.2 image_width image_height
    | [] => centerCrop dims.1 dims.2 image_width image_height

/-! ### pipeline.py: data model -/

/-- The `hashes` sub-dictionary of a photo record. -/
structure Hashes where
  phash : String
  dhash : String
deriving DecidableEq, Repr

/-- One face-encoding entry of a photo record (pipeline.py lines 214-222). -/
structure FaceEncoding where
  embedding : List ℚ
  box : Box
  confidence : ℚ
  quality_score : ℚ
deriving DecidableEq, Repr

/-- The fields of a `process_photo` result record that the orchestrator
and the three clustering passes read (pipeline.py lines 199-233). -/
structure Photo where
  filename : String
  filepath : String
  hashes : Hashes
  image_embedding : List ℚ
  face_encodings : List FaceEncoding
deriving DecidableEq, Repr

/-! ### pipeline.py: cluster_near_duplicates (lines 242-289) -/

/-- Inner scan of `cluster_near_duplicates`: walk the records after the
seed, skip the ones already in `processed`, and add every record whose
phash or dhash Hamming distance to the seed is within the threshold,
marking it processed. Returns the added filenames and the final
`processed` set (modelled as a list with set membership). -/
def cndInner (phash1 dhash1 : String) (t : ℤ) :
    List Photo → List String → List String × List String
  | [], processed => ([], processed)
  | p :: rest, processed =>
    if p.filename ∈ processed then cndInner phash1 dhash1 t rest processed
    else if (hamming_distance phash1 p.hashes.phash : ℤ) ≤ t ∨
        (hamming_distance dhash1 p.hashes.dhash : ℤ) ≤ t then
      let r := cndInner phash1 dhash1 t rest (p.filename :: processed)
      (p.filename :: r.1, r.2)
    else cndInner phash1 dhash1 t rest processed

/-- Outer loop of `cluster_near_duplicates`: each unprocessed record seeds
a cluster; clusters that stay singletons are discarded. -/
def cndOuter (t : ℤ) : List Photo → List String → List (List String)
  | [], _ => []
  | p :: rest, processed =>
    if p.filename ∈ processed then cndOuter t rest processed
    else
      let inner := cndInner p.hashes.phash p.hashes.dhash t rest (p.filename :: processed)
      let cluster := p.filename :: inner.1
      if 1 < cluster.length then cluster :: cndOuter t rest inner.2
      else cndOuter t rest inner.2

/-- `cluster_near_duplicates` (pipeline.py lines 242-289). -/
def cluster_near_duplicates (photo_results : List Photo) (hash_threshold : ℤ) :
    List (List String) :=
  cndOuter hash_threshold photo_results []

/-! ### pipeline.py: cluster_scenes (lines 292-334) -/

/-- Distinct DBSCAN labels other than the noise label `-1`, in order of
first appearance (Python dict insertion order). -/
def sceneKeys : List ℤ → List ℤ
  | [] => []
  | k :: rest =>
    if k = -1 then sceneKeys rest
    else k :: (sceneKeys rest).filter (fun x => !decide (x = k))

/-- Group the filenames by their DBSCAN label, dropping noise. -/
def sceneGroups (labels : List ℤ) (names : List String) : List (List String) :=
  (sceneKeys labels).map fun k =>
    ((labels.zip names).filter (fun pr => decide (pr.1 = k))).map Prod.snd

/-- `cluster_scenes` (pipeline.py lines 292-334). `fit_predict eps embs`
stands for the external `sklearn` `DBSCAN(eps, min_samples=2,
metric="cosine").fit_predict`, returning one label per embedding with
`-1` for noise. -/
def cluster_scenes (fit_predict : ℚ → List (List ℚ) → List ℤ)
    (photo_results : List Photo) (similarity_threshold : ℚ) : List (List String) :=
  let valid_photos := photo_results.filter (fun p => !p.image_embedding.isEmpty)
  if valid_photos.length < 2 then []
  else
    let eps := 1 - similarity_threshold
    let labels := fit_predict eps (valid_photos.map (fun p => p.image_embedding))
    sceneGroups labels (valid_photos.map (fun p => p.filename))

/-! ### pipeline.py: cluster_people (lines 337-404) -/

/-- One entry of the flattened `all_faces` list (pipeline.py lines 357-366). -/
structure FaceEntry where
  filename : String
  embedding : List ℚ
  box : Box
  quality_score : ℚ
  confidence : ℚ
deriving DecidableEq, Repr

/-- A person cluster (pipeline.py lines 379-384). -/
structure PersonCluster where
  person_id : ℕ
  photo_filenames : List String
  faces : List FaceEntry
  representative_face : FaceEntry
deriving DecidableEq, Repr

/-- Inner scan of `cluster_people`: add every unprocessed later face whose
distance to the seed face's embedding is within the threshold, updating
the representative face whenever a strictly higher quality score shows
up. Faces are identified by their index in `all_faces` (the Python
`processed` set holds indices). -/
def cpInner (dist : List ℚ → List ℚ → ℚ) (t : ℚ) (seed_embedding : List ℚ) :
    List (ℕ × FaceEntry) → List ℕ → PersonCluster → PersonCluster × List ℕ
  | [], processed, cluster => (cluster, processed)
  | (j, face2) :: rest, processed, cluster =>
    if j ∈ processed then cpInner dist t seed_embedding rest processed cluster
    else if dist seed_embedding face2.embedding ≤ t then
      let cluster' : PersonCluster :=
        { person_id := cluster.person_id
          photo_filenames := cluster.photo_filenames ++ [face2.filename]
          faces := cluster.faces ++ [face2]
          representative_face :=
            if cluster.representative_face.quality_score < face2.quality_score then face2
            else cluster.representative_face }
      cpInner dist t seed_embedding rest (j :: processed) cluster'
    else cpInner dist t seed_embedding rest processed cluster

/-- Outer loop of `cluster_people`; `n` is `len(clusters)` so far, used as
the next `person_id`. Single-face clusters are discarded. -/
def cpOuter (dist : List ℚ → List ℚ → ℚ) (t : ℚ) :
    List (ℕ × FaceEntry) → List ℕ → ℕ → List PersonCluster
  | [], _, _ => []
  | (i, face1) :: rest, processed, n =>
    if i ∈ processed then cpOuter dist t rest processed n
    else
      let cluster0 : PersonCluster :=
        ⟨n, [face1.filename], [face1], face1⟩
      let r := cpInner dist t face1.embedding rest (i :: processed) cluster0
      if 1 < r.1.faces.length then r.1 :: cpOuter dist t rest r.2 (n + 1)
      else cpOuter dist t rest r.2 n

/-- The flattened `all_faces` list (pipeline.py lines 357-366). -/
def allFaces (photo_results : List Photo) : List FaceEntry :=
  photo_results.flatMap fun photo =>
    photo.face_encodings.map fun fe =>
      ⟨photo.filename, fe.embedding, fe.box, fe.quality_score, fe.confidence⟩

/-- `cluster_people` (pipeline.py lines 337-404). `dist` stands for the
external `face_distance` (Euclidean norm of the difference, an opaque
collaborator per face_embeddings.py). -/
def cluster_people (dist : List ℚ → List ℚ → ℚ) (photo_results : List Photo)
    (face_distance_threshold : ℚ) : List PersonCluster :=
  let all_faces := allFaces photo_results
  if all_faces.length < 2 then []
  else cpOuter dist face_distance_threshold all_faces.enum [] 0

/-! ### pipeline.py: batch orchestrator (main, lines 447-526) -/

/-- The orchestrator's mutable state: the `processed_files` set (modelled
as an insertion-ordered list with set-like insert) and the accumulated
`all_results`. -/
structure OrchState where
  processed_files : List String
  all_results : List Photo
deriving DecidableEq, Repr

/-- One iteration of the inner photo loop (pipeline.py lines 482-487):
on success the record is appended and the path added to the set, on
failure (`process_photo` returned `None`) nothing changes. -/
def runPhoto (handler : String → Option Photo) (st : OrchState) (path : String) :
    OrchState :=
  match handler path with
  | some result =>
    { processed_files :=
        if path ∈ st.processed_files then st.processed_files
        else st.processed_files ++ [path]
      all_results := st.all_results ++ [result] }
  | none => st

/-- One batch (pipeline.py lines 474-488): drop already-processed paths,
then run the photo loop. -/
def runBatch (handler : String → Option Photo) (st : OrchState)
    (batch : List String) : OrchState :=
  (batch.filter (fun f => !decide (f ∈ st.processed_files))).foldl
    (runPhoto handler) st

/-- The whole batch loop; a checkpoint is written after each batch, so the
states reached after each prefix of batches are the checkpointed states. -/
def runAll (handler : String → Option Photo) (st : OrchState)
    (batches : List (List String)) : OrchState :=
  batches.foldl (runBatch handler) st

/-- The lock-step invariant of the claim: `processed_files` holds no
duplicates and is exactly the list of filepaths of `all_results`, so each
path has exactly one record and vice versa. -/
def consistentState (st : OrchState) : Prop :=
  st.processed_files.Nodup ∧
    st.all_results.map (fun r => r.filepath) = st.processed_files

/-! ### Claims about perceptual hashing (C5, C10) -/

/-- C5 counterexample: the claim asserts `hamming_distance(h, h) = 0` and
`are_similar(h, h, t) = true` for every hash string `h`; both fail on the
empty hash string (the failure sentinel of `compute_hashes`), where the
distance is the error sentinel 999. -/
theorem c5_counterexample :
    hamming_distance "" "" = 999 ∧ hamming_distance "" "" ≠ 0 ∧
      are_similar "" "" 10 = false := by
  decide

/-- C5 (amended): Hamming distance is symmetric for all strings; it is
zero on identical strings, and `are_similar(h, h, t)` is true for every
`t ≥ 0`, provided the string is a valid hexadecimal literal. -/
theorem c5_amended :
    (∀ h1 h2 : String, hamming_distance h1 h2 = hamming_distance h2 h1) ∧
    (∀ (h : String) (n : ℕ), hexToNat? h = some n → hamming_distance h h = 0) ∧
    (∀ (h : String) (n : ℕ) (t : ℤ), hexToNat? h = some n → 0 ≤ t →
      are_similar h h t = true) := by
  refine ⟨hamming_comm, fun h n hv => hamming_self_of_valid hv, fun h n t hv ht => ?_⟩
  unfold are_similar
  rw [hamming_self_of_valid hv]
  simpa using ht

/-- C5 amended witness at the concrete hash string `"ff"`. -/
theorem c5_amended_witness :
    hexToNat? "ff" = some 255 ∧ (0 : ℤ) ≤ 10 ∧
      hamming_distance "ff" "ff" = 0 ∧ are_similar "ff" "ff" 10 = true :=
  ⟨by decide, by decide, c5_amended.2.1 "ff" 255 (by decide),
    c5_amended.2.2 "ff" 255 10 (by decide) (by decide)⟩

/-- C10: on any string that is not a valid hexadecimal literal,
`hamming_distance` returns the sentinel 999 instead of raising, and
consequently `are_similar(h, h, t)` is false for every `t < 999` even
though the arguments are identical. -/
theorem c10_invalid_hash_sentinel :
    ∀ s : String, hexToNat? s = none →
      hamming_distance s s = 999 ∧
        ∀ t : ℤ, t < 999 → are_similar s s t = false := by
  intro s hv
  refine ⟨hamming_invalid_left hv s, fun t ht => ?_⟩
  unfold are_similar
  rw [hamming_invalid_left hv s]
  simp only [decide_eq_false_iff_not, not_le]
  exact_mod_cast ht

/-- C10 witness at the empty string (what `compute_hashes` returns on
failure) and the default threshold 10. -/
theorem c10_witness :
    hexToNat? "" = none ∧ (10 : ℤ) < 999 ∧
      hamming_distance "" "" = 999 ∧ are_similar "" "" 10 = false :=
  ⟨by decide, by decide, (c10_invalid_hash_sentinel "" (by decide)).1,
    (c10_invalid_hash_sentinel "" (by decide)).2 10 (by decide)⟩

/-! ### Claim C6: strategy priority -/

/-- C6: `calculate_smart_crop` picks strategies in strict priority order —
non-empty `faces` yields method `"face"`; empty `faces` with non-empty
`persons` yields `"person"`; both empty yields `"saliency"` with the
geometric center crop and confidence exactly 0.3. -/
theorem c6_strategy_priority :
    (∀ (ar : ℚ × ℚ) (f0 : Detection) (fs persons : List Detection)
        (iw ih : ℕ) (hr : ℚ),
      (calculate_smart_crop ar (f0 :: fs) persons iw ih hr).method = "face") ∧
    (∀ (ar : ℚ × ℚ) (p0 : Detection) (ps : List Detection) (iw ih : ℕ) (hr : ℚ),
      (calculate_smart_crop ar [] (p0 :: ps) iw ih hr).method = "person") ∧
    (∀ (ar : ℚ × ℚ) (iw ih : ℕ) (hr : ℚ),
      (calculate_smart_crop ar [] [] iw ih hr).method = "saliency" ∧
      (calculate_smart_crop ar [] [] iw ih hr).confidence = 3/10 ∧
      (calculate_smart_crop ar [] [] iw ih hr).crop_box.x =
        Int.fdiv ((iw : ℤ) - (calculate_smart_crop ar [] [] iw ih hr).crop_box.width) 2 ∧
      (calculate_smart_crop ar [] [] iw ih hr).crop_box.y =
        Int.fdiv ((ih : ℤ) - (calculate_smart_crop ar [] [] iw ih hr).crop_box.height) 2) :=
  ⟨fun _ _ _ _ _ _ _ => rfl, fun _ _ _ _ _ _ => rfl,
    fun _ _ _ _ => ⟨rfl, rfl, rfl, rfl⟩⟩

/-! ### Claim C9: cluster_scenes needs two embedded records -/

/-- C9: `cluster_scenes` returns no clusters whenever fewer than two
records carry a non-empty `image_embedding`, for every similarity
threshold and every behavior of the external DBSCAN. -/
theorem c9_scenes_need_two :
    ∀ (fit_predict : ℚ → List (List ℚ) → List ℤ) (photo_results : List Photo)
      (similarity_threshold : ℚ),
      (photo_results.filter (fun p => !p.image_embedding.isEmpty)).length < 2 →
      cluster_scenes fit_predict photo_results similarity_threshold = [] := by
  intro fit_predict photo_results similarity_threshold hlt
  unfold cluster_scenes
  simp only [if_pos hlt]

/-- C9 witness: one embedded record (plus one with an empty embedding)
yields no scene clusters. -/
theorem c9_witness :
    (([⟨"a.jpg", "/p/a.jpg", ⟨"", ""⟩, [], []⟩,
       ⟨"b.jpg", "/p/b.jpg", ⟨"", ""⟩, [1, 0], []⟩] : List Photo).filter
        (fun p => !p.image_embedding.isEmpty)).length < 2 ∧
    cluster_scenes (fun _ _ => [0, 0])
      [⟨"a.jpg", "/p/a.jpg", ⟨"", ""⟩, [], []⟩,
       ⟨"b.jpg", "/p/b.jpg", ⟨"", ""⟩, [1, 0], []⟩] (85/100) = [] :=
  ⟨by decide, c9_scenes_need_two (fun _ _ => [0, 0]) _ (85/100) (by decide)⟩

/-! ### Claim C4: greedy seed-based near-duplicate clustering -/

theorem cndOuter_two_le (t : ℤ) :
    ∀ (l : List Photo) (processed : List String) (c : List String),
      c ∈ cndOuter t l processed → 2 ≤ c.length := by
  intro l
  induction l with
  | nil => intro processed c hc; simp [cndOuter] at hc
  | cons p rest ih =>
    intro processed c hc
    unfold cndOuter at hc
    by_cases hp : p.filename ∈ processed
    · rw [if_pos hp] at hc
      exact ih processed c hc
    · rw [if_neg hp] at hc
      set inner := cndInner p.hashes.phash p.hashes.dhash t rest (p.filename :: processed)
        with hinner
      by_cases hl : 1 < (p.filename :: inner.1).length
      · rw [if_pos hl] at hc
        rcases List.mem_cons.mp hc with h | h
        · subst h; exact hl
        · exact ih inner.2 c h
      · rw [if_neg hl] at hc
        exact ih inner.2 c hc

theorem cndInner_filter (ph dh : String) (t : ℤ) :
    ∀ (rest : List Photo) (processed : List String),
      (∀ q ∈ rest, q.filename ∉ processed) →
      (rest.map (fun q => q.filename)).Nodup →
      (cndInner ph dh t rest processed).1 =
        (rest.filter (fun q =>
          decide ((hamming_distance ph q.hashes.phash : ℤ) ≤ t ∨
            (hamming_distance dh q.hashes.dhash : ℤ) ≤ t))).map
          (fun q => q.filename) := by
  intro rest
  induction rest with
  | nil => intro processed _ _; simp [cndInner]
  | cons q rest ih =>
    intro processed hnp hnd
    have hq : q.filename ∉ processed := hnp q (List.mem_cons_self q rest)
    have hnd' : (rest.map (fun q => q.filename)).Nodup :=
      (List.nodup_cons.mp hnd).2
    have hqrest : ∀ r ∈ rest, r.filename ≠ q.filename := by
      intro r hr heq
      exact (List.nodup_cons.mp hnd).1 (List.mem_map.mpr ⟨r, hr, heq⟩)
    unfold cndInner
    rw [if_neg hq]
    by_cases hsim : (hamming_distance ph q.hashes.phash : ℤ) ≤ t ∨
        (hamming_distance dh q.hashes.dhash : ℤ) ≤ t
    · rw [if_pos hsim]
      have hrec := ih (q.filename :: processed)
        (fun r hr => by
          simp only [List.mem_cons, not_or]
          exact ⟨hqrest r hr, hnp r (List.mem_cons_of_mem q hr)⟩) hnd'
      have hd : decide ((hamming_distance ph q.hashes.phash : ℤ) ≤ t ∨
          (hamming_distance dh q.hashes.dhash : ℤ) ≤ t) = true := decide_eq_true hsim
      dsimp only
      rw [List.filter_cons, hd, if_pos rfl, List.map_cons, hrec]
    · rw [if_neg hsim]
      have hrec := ih processed (fun r hr => hnp r (List.mem_cons_of_mem q hr)) hnd'
      have hd : decide ((hamming_distance ph q.hashes.phash : ℤ) ≤ t ∨
          (hamming_distance dh q.hashes.dhash : ℤ) ≤ t) = false := decide_eq_false hsim
      rw [List.filter_cons, hd, if_neg Bool.false_ne_true]
      exact hrec

/-- Scenario photo: the near-duplicate seed (all-zero hashes). -/
def photoNd1 : Photo :=
  ⟨"a.jpg", "/photos/a.jpg", ⟨"0000000000000000", "0000000000000000"⟩, [], []⟩

/-- Scenario photo: near-identical to the seed (hash distance 2). -/
def photoNd2 : Photo :=
  ⟨"b.jpg", "/photos/b.jpg", ⟨"0000000001000001", "0000000001000001"⟩, [], []⟩

/-- Scenario photo: distinct (hash distance 40 to both others). -/
def photoNd3 : Photo :=
  ⟨"c.jpg", "/photos/c.jpg", ⟨"ffffffffff000000", "ffffffffff000000"⟩, [], []⟩

/-- C4: `cluster_near_duplicates` is greedy seed-based grouping — on
records with pairwise-distinct filenames, the records scanned after a
seed join its cluster exactly when their phash OR dhash Hamming distance
to the seed is within the threshold (the `cndInner` characterization);
singleton clusters are discarded (every emitted cluster has ≥ 2 members);
and on the 3-photo scenario (mutual distance 2, distance 40 to the third,
threshold 10) the output is exactly one cluster of size 2. -/
theorem c4_near_duplicate_clustering :
    (cluster_near_duplicates [photoNd1, photoNd2, photoNd3] 10 =
      [["a.jpg", "b.jpg"]] ∧
      hamming_distance "0000000000000000" "0000000001000001" = 2 ∧
      hamming_distance "0000000000000000" "ffffffffff000000" = 40 ∧
      hamming_distance "0000000001000001" "ffffffffff000000" = 40) ∧
    (∀ (photos : List Photo) (t : ℤ) (c : List String),
      c ∈ cluster_near_duplicates photos t → 2 ≤ c.length) ∧
    (∀ (ph dh : String) (t : ℤ) (rest : List Photo) (processed : List String),
      (∀ q ∈ rest, q.filename ∉ processed) →
      (rest.map (fun q => q.filename)).Nodup →
      (cndInner ph dh t rest processed).1 =
        (rest.filter (fun q =>
          decide ((hamming_distance ph q.hashes.phash : ℤ) ≤ t ∨
            (hamming_distance dh q.hashes.dhash : ℤ) ≤ t))).map
          (fun q => q.filename)) := by
  refine ⟨⟨?_, ?_, ?_, ?_⟩, fun photos t c hc => cndOuter_two_le t photos [] c hc,
    cndInner_filter⟩
  · decide
  · decide
  · decide
  · decide

/-- C4 witness for the hypothesis-bearing parts: the singleton-discard
bound at the scenario's own output cluster, and the `cndInner`
characterization at a concrete two-record list. -/
theorem c4_witness :
    (["a.jpg", "b.jpg"] ∈ cluster_near_duplicates [photoNd1, photoNd2, photoNd3] 10 ∧
      2 ≤ (["a.jpg", "b.jpg"] : List String).length) ∧
    (cndInner "0000000000000000" "0000000000000000" 10 [photoNd2, photoNd3] ["a.jpg"]).1 =
      ["b.jpg"] := by
  constructor
  · constructor
    · decide
    · exact c4_near_duplicate_clustering.2.1 [photoNd1, photoNd2, photoNd3] 10
        ["a.jpg", "b.jpg"] (by decide)
  · have h := c4_near_duplicate_clustering.2.2 "0000000000000000" "0000000000000000" 10
      [photoNd2, photoNd3] ["a.jpg"] (by decide) (by decide)
    rw [h]
    decide

/-! ### Claim C8: people clusters -/

/-- Invariant carried by `cpInner`: the representative face belongs to the
cluster and dominates every member's quality score. -/
def repInvariant (cl : PersonCluster) : Prop :=
  cl.representative_face ∈ cl.faces ∧
    ∀ f ∈ cl.faces, f.quality_score ≤ cl.representative_face.quality_score

theorem cpInner_repInvariant (dist : List ℚ → List ℚ → ℚ) (t : ℚ) (se : List ℚ) :
    ∀ (rest : List (ℕ × FaceEntry)) (processed : List ℕ) (cl : PersonCluster),
      repInvariant cl → repInvariant (cpInner dist t se rest processed cl).1 := by
  intro rest
  induction rest with
  | nil => intro processed cl h; exact h
  | cons entry rest ih =>
    intro processed cl h
    obtain ⟨j, face2⟩ := entry
    unfold cpInner
    by_cases hj : j ∈ processed
    · rw [if_pos hj]; exact ih processed cl h
    · rw [if_neg hj]
      by_cases hd : dist se face2.embedding ≤ t
      · rw [if_pos hd]
        dsimp only
        refine ih (j :: processed) _ ?_
        constructor
        · by_cases hq : cl.representative_face.quality_score < face2.quality_score
          · simp only [if_pos hq]
            exact List.mem_append_right _ (List.mem_singleton_self face2)
          · simp only [if_neg hq]
            exact List.mem_append_left _ h.1
        · intro f hf
          rcases List.mem_append.mp hf with hf | hf
          · by_cases hq : cl.representative_face.quality_score < face2.quality_score
            · simp only [if_pos hq]
              exact le_of_lt (lt_of_le_of_lt (h.2 f hf) hq)
            · simp only [if_neg hq]
              exact h.2 f hf
          · rw [List.mem_singleton.mp hf]
            by_cases hq : cl.representative_face.quality_score < face2.quality_score
            · simp only [if_pos hq]
              exact le_refl _
            · simp only [if_neg hq]
              exact le_of_not_lt hq
      · rw [if_neg hd]; exact ih processed cl h

theorem cpOuter_mem (dist : List ℚ → List ℚ → ℚ) (t : ℚ) :
    ∀ (l : List (ℕ × FaceEntry)) (processed : List ℕ) (n : ℕ) (cl : PersonCluster),
      cl ∈ cpOuter dist t l processed n →
      repInvariant cl ∧ 2 ≤ cl.faces.length := by
  intro l
  induction l with
  | nil => intro processed n cl hc; simp [cpOuter] at hc
  | cons entry rest ih =>
    intro processed n cl hc
    obtain ⟨i, face1⟩ := entry
    unfold cpOuter at hc
    by_cases hi : i ∈ processed
    · rw [if_pos hi] at hc
      exact ih processed n cl hc
    · rw [if_neg hi] at hc
      dsimp only at hc
      set r := cpInner dist t face1.embedding rest (i :: processed)
        ⟨n, [face1.filename], [face1], face1⟩ with hr
      by_cases hl : 1 < r.1.faces.length
      · rw [if_pos hl] at hc
        rcases List.mem_cons.mp hc with h | h
        · subst h
          refine ⟨cpInner_repInvariant dist t face1.embedding rest (i :: processed) _ ?_, hl⟩
          exact ⟨List.mem_singleton_self face1, by
            intro f hf; rw [List.mem_singleton.mp hf]⟩
        · exact ih r.2 (n + 1) cl h
      · rw [if_neg hl] at hc
        exact ih r.2 n cl hc

/-- C8: every cluster returned by `cluster_people` (for any face-distance
collaborator) has a representative face that is a member of the cluster
and whose quality score dominates every face in the cluster, and every
returned cluster contains at least two faces. -/
theorem c8_people_clusters :
    ∀ (dist : List ℚ → List ℚ → ℚ) (photo_results : List Photo) (t : ℚ)
      (cl : PersonCluster), cl ∈ cluster_people dist photo_results t →
      cl.representative_face ∈ cl.faces ∧
      (∀ f ∈ cl.faces, f.quality_score ≤ cl.representative_face.quality_score) ∧
      2 ≤ cl.faces.length := by
  intro dist photo_results t cl hc
  unfold cluster_people at hc
  by_cases hlen : (allFaces photo_results).length < 2
  · rw [if_pos hlen] at hc
    simp at hc
  · rw [if_neg hlen] at hc
    have h := cpOuter_mem dist t (allFaces photo_results).enum [] 0 cl hc
    exact ⟨h.1.1, h.1.2, h.2⟩

/-- Photo with a single lower-quality face, for the C8 witness. -/
def photoFaceD : Photo :=
  ⟨"d.jpg", "/photos/d.jpg", ⟨"", ""⟩, [], [⟨[0], ⟨0, 0, 10, 10⟩, 1, 1/2⟩]⟩

/-- Photo with a single higher-quality face, for the C8 witness. -/
def photoFaceE : Photo :=
  ⟨"e.jpg", "/photos/e.jpg", ⟨"", ""⟩, [], [⟨[0], ⟨0, 0, 10, 10⟩, 1, 3/4⟩]⟩

/-- C8 witness: with a constant-zero distance collaborator the two faces
group into one cluster represented by the higher-quality face. -/
theorem c8_witness :
    (⟨0, ["d.jpg", "e.jpg"],
        [⟨"d.jpg", [0], ⟨0, 0, 10, 10⟩, 1/2, 1⟩, ⟨"e.jpg", [0], ⟨0, 0, 10, 10⟩, 3/4, 1⟩],
        ⟨"e.jpg", [0], ⟨0, 0, 10, 10⟩, 3/4, 1⟩⟩ : PersonCluster) ∈
      cluster_people (fun _ _ => 0) [photoFaceD, photoFaceE] (6/10) ∧
    (⟨"e.jpg", [0], ⟨0, 0, 10, 10⟩, 3/4, 1⟩ : FaceEntry) ∈
      [(⟨"d.jpg", [0], ⟨0, 0, 10, 10⟩, 1/2, 1⟩ : FaceEntry),
       ⟨"e.jpg", [0], ⟨0, 0, 10, 10⟩, 3/4, 1⟩] ∧
    2 ≤ ([(⟨"d.jpg", [0], ⟨0, 0, 10, 10⟩, 1/2, 1⟩ : FaceEntry),
          ⟨"e.jpg", [0], ⟨0, 0, 10, 10⟩, 3/4, 1⟩]).length := by
  have hm : (⟨0, ["d.jpg", "e.jpg"],
      [⟨"d.jpg", [0], ⟨0, 0, 10, 10⟩, 1/2, 1⟩, ⟨"e.jpg", [0], ⟨0, 0, 10, 10⟩, 3/4, 1⟩],
      ⟨"e.jpg", [0], ⟨0, 0, 10, 10⟩, 3/4, 1⟩⟩ : PersonCluster) ∈
      cluster_people (fun _ _ => 0) [photoFaceD, photoFaceE] (6/10) := by
    with_unfolding_all decide
  have h := c8_people_clusters (fun _ _ => 0) [photoFaceD, photoFaceE] (6/10) _ hm
  exact ⟨hm, h.1, h.2.2⟩

/-! ### Claim C7: orchestrator lock-step invariant -/

theorem foldl_runPhoto_consistent (handler : String → Option Photo)
    (hh : ∀ p r, handler p = some r → r.filepath = p) :
    ∀ (todo : List String) (st : OrchState), consistentState st → todo.Nodup →
      (∀ f ∈ todo, f ∉ st.processed_files) →
      consistentState (todo.foldl (runPhoto handler) st) := by
  intro todo
  induction todo with
  | nil => intro st hst _ _; exact hst
  | cons p rest ih =>
    intro st hst hnd hout
    have hp : p ∉ st.processed_files := hout p (List.mem_cons_self p rest)
    simp only [List.foldl_cons]
    rcases hhandler : handler p with _ | r
    · have hid : runPhoto handler st p = st := by
        unfold runPhoto
        rw [hhandler]
      rw [hid]
      exact ih st hst (List.nodup_cons.mp hnd).2
        (fun f hf => hout f (List.mem_cons_of_mem p hf))
    · have hrun : runPhoto handler st p =
          ⟨st.processed_files ++ [p], st.all_results ++ [r]⟩ := by
        unfold runPhoto
        rw [hhandler, if_neg hp]
      rw [hrun]
      refine ih _ ⟨?_, ?_⟩ (List.nodup_cons.mp hnd).2 ?_
      · exact List.Nodup.append hst.1 (List.nodup_singleton p)
          (by simpa using fun h => hp h)
      · simp only [List.map_append, hst.2, List.map_cons, List.map_nil,
          hh p r hhandler]
      · intro f hf
        simp only [List.mem_append, List.mem_singleton, not_or]
        exact ⟨hout f (List.mem_cons_of_mem p hf),
          fun h => (List.nodup_cons.mp hnd).1 (h ▸ hf)⟩

theorem runBatch_consistent (handler : String → Option Photo)
    (hh : ∀ p r, handler p = some r → r.filepath = p)
    (batch : List String) (st : OrchState) (hst : consistentState st)
    (hnd : batch.Nodup) : consistentState (runBatch handler st batch) := by
  unfold runBatch
  refine foldl_runPhoto_consistent handler hh _ st hst (hnd.filter _) ?_
  intro f hf
  have := List.of_mem_filter hf
  simpa using this

/-- C7: the orchestrator keeps `processed_files` and `all_results` in
lock-step. From any consistent checkpoint state, (1) the state after
every batch prefix — i.e. at every checkpoint write — is consistent:
`processed_files` is duplicate-free and is exactly the list of filepaths
of `all_results`, so each path has exactly one record and vice versa;
(2) a per-photo failure (`process_photo` returning `None`) changes
nothing; (3) a success on an unprocessed path appends exactly one record
and adds exactly that path. Batches are duplicate-free, as produced by
file discovery, and `process_photo` stamps the record with its path. -/
theorem c7_lockstep (handler : String → Option Photo)
    (hh : ∀ p r, handler p = some r → r.filepath = p)
    (batches : List (List String)) (hb : ∀ b ∈ batches, b.Nodup)
    (init : OrchState) (hinit : consistentState init) :
    (∀ n : ℕ, consistentState (runAll handler init (batches.take n))) ∧
    (∀ (st : OrchState) (path : String), handler path = none →
      runPhoto handler st path = st) ∧
    (∀ (st : OrchState) (path : String) (r : Photo), handler path = some r →
      path ∉ st.processed_files →
      runPhoto handler st path =
        ⟨st.processed_files ++ [path], st.all_results ++ [r]⟩) := by
  refine ⟨?_, ?_, ?_⟩
  · intro n
    induction n generalizing init batches with
    | zero => simpa [runAll] using hinit
    | succ n ih =>
      cases batches with
      | nil => simpa [runAll] using hinit
      | cons b bs =>
        simp only [List.take_succ_cons, runAll, List.foldl_cons]
        have hb' : ∀ b' ∈ bs, b'.Nodup := fun b' h => hb b' (List.mem_cons_of_mem b h)
        have hst' := runBatch_consistent handler hh b init hinit
          (hb b (List.mem_cons_self b bs))
        exact ih bs hb' _ hst'
  · intro st path hnone
    unfold runPhoto
    rw [hnone]
  · intro st path r hsome hnp
    unfold runPhoto
    rw [hsome, if_neg hnp]

/-- Sample record for the C7 witness. -/
def photoRunA : Photo := ⟨"a.jpg", "/in/a.jpg", ⟨"", ""⟩, [], []⟩

/-- Sample per-photo handler for the C7 witness: succeeds on
`"/in/a.jpg"`, fails on everything else. -/
def handlerW (p : String) : Option Photo :=
  if p = "/in/a.jpg" then some photoRunA else none

/-- C7 witness: one batch with one succeeding and one failing path,
starting from the empty checkpoint state, stays consistent. -/
theorem c7_witness :
    consistentState (runAll handlerW ⟨[], []⟩ ([["/in/a.jpg", "/in/broken.jpg"]].take 1)) ∧
    runPhoto handlerW ⟨["/in/a.jpg"], [photoRunA]⟩ "/in/broken.jpg" =
      ⟨["/in/a.jpg"], [photoRunA]⟩ ∧
    runPhoto handlerW ⟨[], []⟩ "/in/a.jpg" = ⟨["/in/a.jpg"], [photoRunA]⟩ := by
  have hh : ∀ p r, handlerW p = some r → r.filepath = p := by
    intro p r h
    unfold handlerW at h
    by_cases hp : p = "/in/a.jpg"
    · rw [if_pos hp] at h
      cases h
      rw [hp]
      rfl
    · rw [if_neg hp] at h
      cases h
  have h := c7_lockstep handlerW hh [["/in/a.jpg", "/in/broken.jpg"]]
    (by intro b hb; simp at hb; rw [hb]; decide) ⟨[], []⟩ ⟨List.nodup_nil, rfl⟩
  refine ⟨h.1 1, h.2.1 ⟨["/in/a.jpg"], [photoRunA]⟩ "/in/broken.jpg" (by decide),
    h.2.2 ⟨[], []⟩ "/in/a.jpg" photoRunA ?_ (by decide)⟩
  unfold handlerW
  rw [if_pos rfl]

/-! ### Geometry facts about cropDims -/

theorem cropDims_spec (aw ah : ℚ) (iw ih : ℕ) (haw : 0 < aw) (hah : 0 < ah)
    (hiw : 0 < iw) (hih : 0 < ih) :
    0 ≤ (cropDims aw ah iw ih).1 ∧ (cropDims aw ah iw ih).1 ≤ (iw : ℤ) ∧
    0 ≤ (cropDims aw ah iw ih).2 ∧ (cropDims aw ah iw ih).2 ≤ (ih : ℤ) ∧
    ((cropDims aw ah iw ih).1 = (iw : ℤ) ∨ (cropDims aw ah iw ih).2 = (ih : ℤ)) ∧
    ((((cropDims aw ah iw ih).1 : ℚ) ≤ ((cropDims aw ah iw ih).2 : ℚ) * (aw / ah) ∧
      ((cropDims aw ah iw ih).2 : ℚ) * (aw / ah) - 1 < ((cropDims aw ah iw ih).1 : ℚ)) ∨
     (((cropDims aw ah iw ih).2 : ℚ) ≤ ((cropDims aw ah iw ih).1 : ℚ) * (ah / aw) ∧
      ((cropDims aw ah iw ih).1 : ℚ) * (ah / aw) - 1 < ((cropDims aw ah iw ih).2 : ℚ))) := by
  have hta : (0 : ℚ) < aw / ah := div_pos haw hah
  have hihQ : (0 : ℚ) < (ih : ℚ) := by exact_mod_cast hih
  have hiwQ : (0 : ℚ) < (iw : ℚ) := by exact_mod_cast hiw
  unfold cropDims
  dsimp only
  rw [show (((ih : ℤ) : ℚ)) = ((ih : ℚ)) from by push_cast; ring,
    show (((iw : ℤ) : ℚ)) = ((iw : ℚ)) from by push_cast; ring]
  split
  · next h =>
    dsimp only
    have hmul : (ih : ℚ) * (aw / ah) < (iw : ℚ) := by
      calc (ih : ℚ) * (aw / ah) < (ih : ℚ) * ((iw : ℚ) / (ih : ℚ)) :=
            mul_lt_mul_of_pos_left h hihQ
        _ = (iw : ℚ) := by field_simp
    have hnn : (0 : ℚ) ≤ (ih : ℚ) * (aw / ah) := le_of_lt (mul_pos hihQ hta)
    have hple : (pyInt ((ih : ℚ) * (aw / ah)) : ℚ) ≤ (ih : ℚ) * (aw / ah) :=
      pyInt_le_of_nonneg hnn
    have hplt : pyInt ((ih : ℚ) * (aw / ah)) < (iw : ℤ) := by
      exact_mod_cast lt_of_le_of_lt hple hmul
    rw [min_eq_left (le_of_lt hplt)]
    refine ⟨pyInt_nonneg hnn, le_of_lt hplt, by positivity, le_refl _, Or.inr rfl,
      Or.inl ⟨hple, lt_pyInt_add_one _⟩⟩
  · next h =>
    dsimp only
    have h' : (iw : ℚ) / (ih : ℚ) ≤ aw / ah := not_lt.mp h
    have h2 : (iw : ℚ) ≤ aw / ah * (ih : ℚ) := (div_le_iff₀ hihQ).mp h'
    have hmul : (iw : ℚ) / (aw / ah) ≤ (ih : ℚ) := by
      rw [div_le_iff₀ hta]
      linarith
    have hnn : (0 : ℚ) ≤ (iw : ℚ) / (aw / ah) := div_nonneg (le_of_lt hiwQ) (le_of_lt hta)
    have hple : (pyInt ((iw : ℚ) / (aw / ah)) : ℚ) ≤ (iw : ℚ) / (aw / ah) :=
      pyInt_le_of_nonneg hnn
    have hpleih : pyInt ((iw : ℚ) / (aw / ah)) ≤ (ih : ℤ) := by
      exact_mod_cast le_trans hple hmul
    rw [min_eq_left hpleih]
    have hdiv : (iw : ℚ) * (ah / aw) = (iw : ℚ) / (aw / ah) := by
      field_simp
    refine ⟨by positivity, le_refl _, pyInt_nonneg hnn, hpleih, Or.inl rfl,
      Or.inr ⟨?_, ?_⟩⟩
    · push_cast
      rw [hdiv]
      exact hple
    · push_cast
      rw [hdiv]
      exact lt_pyInt_add_one _

theorem faceCrop_bounds (f0 : Detection) (fs : List Detection) (cw ch : ℤ)
    (iw ih : ℕ) (hrr : ℚ) (hcw : cw ≤ (iw : ℤ)) (hch : ch ≤ (ih : ℤ)) :
    0 ≤ (faceCrop f0 fs cw ch iw ih hrr).crop_box.x ∧
    (faceCrop f0 fs cw ch iw ih hrr).crop_box.x + cw ≤ (iw : ℤ) ∧
    0 ≤ (faceCrop f0 fs cw ch iw ih hrr).crop_box.y ∧
    (faceCrop f0 fs cw ch iw ih hrr).crop_box.y + ch ≤ (ih : ℤ) := by
  unfold faceCrop
  dsimp only
  refine ⟨?_, ?_, ?_, ?_⟩ <;> omega

theorem personCrop_bounds (p0 : Detection) (ps : List Detection) (cw ch : ℤ)
    (iw ih : ℕ) (hcw : cw ≤ (iw : ℤ)) (hch : ch ≤ (ih : ℤ)) :
    0 ≤ (personCrop p0 ps cw ch iw ih).crop_box.x ∧
    (personCrop p0 ps cw ch iw ih).crop_box.x + cw ≤ (iw : ℤ) ∧
    0 ≤ (personCrop p0 ps cw ch iw ih).crop_box.y ∧
    (personCrop p0 ps cw ch iw ih).crop_box.y + ch ≤ (ih : ℤ) := by
  unfold personCrop
  dsimp only
  split <;> split <;> refine ⟨?_, ?_, ?_, ?_⟩ <;> omega

theorem centerCrop_bounds (cw ch : ℤ) (iw ih : ℕ)
    (hcw : cw ≤ (iw : ℤ)) (hch : ch ≤ (ih : ℤ)) :
    0 ≤ (centerCrop cw ch iw ih).crop_box.x ∧
    (centerCrop cw ch iw ih).crop_box.x + cw ≤ (iw : ℤ) ∧
    0 ≤ (centerCrop cw ch iw ih).crop_box.y ∧
    (centerCrop cw ch iw ih).crop_box.y + ch ≤ (ih : ℤ) := by
  unfold centerCrop
  dsimp only
  rw [Int.fdiv_eq_ediv _ (by norm_num), Int.fdiv_eq_ediv _ (by norm_num)]
  refine ⟨?_, ?_, ?_, ?_⟩ <;> omega

/-- C1: for every image with positive dimensions, every target ratio with
positive components, and all face/person inputs, the returned crop box
lies fully inside `[0,width] × [0,height]`, its dimensions meet the
requested ratio within integer-rounding tolerance, and the crop is
maximal: its width equals the image width or its height equals the image
height. -/
theorem c1_crop_in_bounds (aw ah : ℚ) (faces persons : List Detection)
    (iw ih : ℕ) (hr : ℚ) (hiw : 0 < iw) (hih : 0 < ih) (haw : 0 < aw)
    (hah : 0 < ah) :
    0 ≤ (calculate_smart_crop (aw, ah) faces persons iw ih hr).crop_box.x ∧
    (calculate_smart_crop (aw, ah) faces persons iw ih hr).crop_box.x +
      (calculate_smart_crop (aw, ah) faces persons iw ih hr).crop_box.width ≤ (iw : ℤ) ∧
    0 ≤ (calculate_smart_crop (aw, ah) faces persons iw ih hr).crop_box.y ∧
    (calculate_smart_crop (aw, ah) faces persons iw ih hr).crop_box.y +
      (calculate_smart_crop (aw, ah) faces persons iw ih hr).crop_box.height ≤ (ih : ℤ) ∧
    ((calculate_smart_crop (aw, ah) faces persons iw ih hr).crop_box.width = (iw : ℤ) ∨
      (calculate_smart_crop (aw, ah) faces persons iw ih hr).crop_box.height = (ih : ℤ)) ∧
    ((((calculate_smart_crop (aw, ah) faces persons iw ih hr).crop_box.width : ℚ) ≤
        ((calculate_smart_crop (aw, ah) faces persons iw ih hr).crop_box.height : ℚ) *
          (aw / ah) ∧
      ((calculate_smart_crop (aw, ah) faces persons iw ih hr).crop_box.height : ℚ) *
          (aw / ah) - 1 <
        ((calculate_smart_crop (aw, ah) faces persons iw ih hr).crop_box.width : ℚ)) ∨
     (((calculate_smart_crop (aw, ah) faces persons iw ih hr).crop_box.height : ℚ) ≤
        ((calculate_smart_crop (aw, ah) faces persons iw ih hr).crop_box.width : ℚ) *
          (ah / aw) ∧
      ((calculate_smart_crop (aw, ah) faces persons iw ih hr).crop_box.width : ℚ) *
          (ah / aw) - 1 <
        ((calculate_smart_crop (aw, ah) faces persons iw ih hr).crop_box.height : ℚ))) := by
  obtain ⟨h1, h2, h3, h4, h5, h6⟩ := cropDims_spec aw ah iw ih haw hah hiw hih
  cases faces with
  | cons f0 fs =>
    have hb := faceCrop_bounds f0 fs (cropDims aw ah iw ih).1 (cropDims aw ah iw ih).2
      iw ih hr h2 h4
    exact ⟨hb.1, hb.2.1, hb.2.2.1, hb.2.2.2, h5, h6⟩
  | nil =>
    cases persons with
    | cons p0 ps =>
      have hb := personCrop_bounds p0 ps (cropDims aw ah iw ih).1 (cropDims aw ah iw ih).2
        iw ih h2 h4
      exact ⟨hb.1, hb.2.1, hb.2.2.1, hb.2.2.2, h5, h6⟩
    | nil =>
      have hb := centerCrop_bounds (cropDims aw ah iw ih).1 (cropDims aw ah iw ih).2
        iw ih h2 h4
      exact ⟨hb.1, hb.2.1, hb.2.2.1, hb.2.2.2, h5, h6⟩

/-- C1 witness: a 1000 × 500 image with a 4:5 target ratio, one face and
one person detection. -/
theorem c1_witness :
    0 < 1000 ∧ 0 < 500 ∧ (0 : ℚ) < 4 ∧ (0 : ℚ) < 5 ∧
    (0 ≤ (calculate_smart_crop ((4 : ℚ), (5 : ℚ))
        [⟨⟨450, 200, 50, 50⟩, 1, 1⟩] [⟨⟨100, 100, 200, 300⟩, 1, 1⟩]
        1000 500 (3/20)).crop_box.x ∧
      (calculate_smart_crop ((4 : ℚ), (5 : ℚ))
        [⟨⟨450, 200, 50, 50⟩, 1, 1⟩] [⟨⟨100, 100, 200, 300⟩, 1, 1⟩]
        1000 500 (3/20)).crop_box.x +
        (calculate_smart_crop ((4 : ℚ), (5 : ℚ))
          [⟨⟨450, 200, 50, 50⟩, 1, 1⟩] [⟨⟨100, 100, 200, 300⟩, 1, 1⟩]
          1000 500 (3/20)).crop_box.width ≤ (1000 : ℤ)) :=
  ⟨by norm_num, by norm_num, by norm_num, by norm_num,
    (c1_crop_in_bounds 4 5 [⟨⟨450, 200, 50, 50⟩, 1, 1⟩]
      [⟨⟨100, 100, 200, 300⟩, 1, 1⟩] 1000 500 (3/20)
      (by norm_num) (by norm_num) (by norm_num) (by norm_num)).1,
    (c1_crop_in_bounds 4 5 [⟨⟨450, 200, 50, 50⟩, 1, 1⟩]
      [⟨⟨100, 100, 200, 300⟩, 1, 1⟩] 1000 500 (3/20)
      (by norm_num) (by norm_num) (by norm_num) (by norm_num)).2.1⟩

/-- A detection box lying inside an `iw × ih` image, with non-negative
extent. -/
def boxInImage (b : Box) (iw ih : ℕ) : Prop :=
  0 ≤ b.x ∧ 0 ≤ b.y ∧ 0 ≤ b.width ∧ 0 ≤ b.height ∧
    b.x + b.width ≤ (iw : ℤ) ∧ b.y + b.height ≤ (ih : ℤ)

theorem pyInt_frac_le (ch : ℤ) (r : ℚ) (hch : 0 ≤ ch) (hr0 : 0 ≤ r) (hr1 : r ≤ 1) :
    0 ≤ pyInt ((ch : ℚ) * r) ∧ pyInt ((ch : ℚ) * r) ≤ ch := by
  have hchQ : (0 : ℚ) ≤ (ch : ℚ) := by exact_mod_cast hch
  have hnn : (0 : ℚ) ≤ (ch : ℚ) * r := mul_nonneg hchQ hr0
  have hle : (ch : ℚ) * r ≤ (ch : ℚ) := by nlinarith
  refine ⟨pyInt_nonneg hnn, ?_⟩
  have := le_trans (pyInt_le_of_nonneg hnn) hle
  exact_mod_cast this

theorem personCrop_top (p0 : Detection) (ps : List Detection) (cw ch : ℤ)
    (iw ih : ℕ) (hch0 : 0 ≤ ch)
    (hbox : boxInImage (pyMaxBy (fun p => p.quality_score * p.confidence) p0 ps).box iw ih) :
    (personCrop p0 ps cw ch iw ih).crop_box.y ≤
      (pyMaxBy (fun p => p.quality_score * p.confidence) p0 ps).box.y ∧
    (pyMaxBy (fun p => p.quality_score * p.confidence) p0 ps).box.y ≤
      (personCrop p0 ps cw ch iw ih).crop_box.y +
        (personCrop p0 ps cw ch iw ih).crop_box.height := by
  obtain ⟨hx0, hy0, hw0, hh0, hxw, hyh⟩ := hbox
  have he20 := pyInt_frac_le ch (20/100) hch0 (by norm_num) (by norm_num)
  have he5 := pyInt_frac_le ch (5/100) hch0 (by norm_num) (by norm_num)
  have he10 := pyInt_frac_le ch (1/10) hch0 (by norm_num) (by norm_num)
  unfold personCrop
  dsimp only
  split_ifs <;> constructor <;> omega

/-- C3: when there are no faces and at least one person, and the chosen
person's (the `confidence * quality_score` maximiser's) box lies inside
the image, the person's top edge satisfies
`crop_y ≤ person_top ≤ crop_y + crop_height` in the returned result. -/
theorem c3_person_top_in_crop (aw ah : ℚ) (p0 : Detection) (ps : List Detection)
    (iw ih : ℕ) (hr : ℚ) (hiw : 0 < iw) (hih : 0 < ih) (haw : 0 < aw) (hah : 0 < ah)
    (hbox : boxInImage (pyMaxBy (fun p => p.quality_score * p.confidence) p0 ps).box iw ih) :
    (calculate_smart_crop (aw, ah) [] (p0 :: ps) iw ih hr).crop_box.y ≤
      (pyMaxBy (fun p => p.quality_score * p.confidence) p0 ps).box.y ∧
    (pyMaxBy (fun p => p.quality_score * p.confidence) p0 ps).box.y ≤
      (calculate_smart_crop (aw, ah) [] (p0 :: ps) iw ih hr).crop_box.y +
        (calculate_smart_crop (aw, ah) [] (p0 :: ps) iw ih hr).crop_box.height := by
  obtain ⟨h1, h2, h3, h4, h5, h6⟩ := cropDims_spec aw ah iw ih haw hah hiw hih
  exact personCrop_top p0 ps (cropDims aw ah iw ih).1 (cropDims aw ah iw ih).2
    iw ih h3 hbox

/-- C3 witness: a person detection in the lower part of a 1000 × 500
image with a 1:1 target ratio. -/
theorem c3_witness :
    0 < 1000 ∧ 0 < 500 ∧ (0 : ℚ) < 1 ∧
    boxInImage (pyMaxBy (fun p => p.quality_score * p.confidence)
      (⟨⟨100, 300, 100, 200⟩, 1, 1⟩ : Detection) []).box 1000 500 ∧
    (calculate_smart_crop ((1 : ℚ), (1 : ℚ)) []
        [⟨⟨100, 300, 100, 200⟩, 1, 1⟩] 1000 500 (3/20)).crop_box.y ≤ 300 ∧
    (300 : ℤ) ≤ (calculate_smart_crop ((1 : ℚ), (1 : ℚ)) []
        [⟨⟨100, 300, 100, 200⟩, 1, 1⟩] 1000 500 (3/20)).crop_box.y +
      (calculate_smart_crop ((1 : ℚ), (1 : ℚ)) []
        [⟨⟨100, 300, 100, 200⟩, 1, 1⟩] 1000 500 (3/20)).crop_box.height :=
  ⟨by norm_num, by norm_num, by norm_num,
    ⟨by decide, by decide, by decide, by decide, by decide, by decide⟩,
    (c3_person_top_in_crop 1 1 ⟨⟨100, 300, 100, 200⟩, 1, 1⟩ [] 1000 500 (3/20)
      (by norm_num) (by norm_num) (by norm_num) (by norm_num)
      ⟨by decide, by decide, by decide, by decide, by decide, by decide⟩).1,
    (c3_person_top_in_crop 1 1 ⟨⟨100, 300, 100, 200⟩, 1, 1⟩ [] 1000 500 (3/20)
      (by norm_num) (by norm_num) (by norm_num) (by norm_num)
      ⟨by decide, by decide, by decide, by decide, by decide, by decide⟩).2⟩

/-! ### Claim C2: face containment -/

theorem faceClamp_x (fx fw cw iw : ℤ) (hfx : 0 ≤ fx)
    (hin : fx + fw ≤ iw) (hfit : fw + 2 ≤ cw) :
    max 0 (min (iw - cw) (pyInt ((fx : ℚ) + (fw : ℚ) / 2 - (cw : ℚ) / 2))) ≤ fx ∧
    fx + fw ≤
      max 0 (min (iw - cw) (pyInt ((fx : ℚ) + (fw : ℚ) / 2 - (cw : ℚ) / 2))) + cw := by
  have hfxQ : (0 : ℚ) ≤ (fx : ℚ) := by exact_mod_cast hfx
  have hfitQ : (fw : ℚ) + 2 ≤ (cw : ℚ) := by exact_mod_cast hfit
  have hub := pyInt_le_max ((fx : ℚ) + (fw : ℚ) / 2 - (cw : ℚ) / 2)
  have hlb := lt_pyInt_add_one ((fx : ℚ) + (fw : ℚ) / 2 - (cw : ℚ) / 2)
  have hvfx : pyInt ((fx : ℚ) + (fw : ℚ) / 2 - (cw : ℚ) / 2) ≤ fx := by
    have hqfx : max 0 ((fx : ℚ) + (fw : ℚ) / 2 - (cw : ℚ) / 2) ≤ (fx : ℚ) :=
      max_le hfxQ (by linarith)
    exact_mod_cast le_trans hub hqfx
  constructor
  · have hmin : min (iw - cw) (pyInt ((fx : ℚ) + (fw : ℚ) / 2 - (cw : ℚ) / 2)) ≤ fx :=
      le_trans (min_le_right _ _) hvfx
    omega
  · have hvlow : fx + fw ≤ pyInt ((fx : ℚ) + (fw : ℚ) / 2 - (cw : ℚ) / 2) + cw := by
      have h2 : ((fx + fw : ℤ) : ℚ) <
          ((pyInt ((fx : ℚ) + (fw : ℚ) / 2 - (cw : ℚ) / 2) + cw : ℤ) : ℚ) := by
        push_cast
        linarith
      exact_mod_cast le_of_lt h2
    have hmm : fx + fw ≤
        min (iw - cw) (pyInt ((fx : ℚ) + (fw : ℚ) / 2 - (cw : ℚ) / 2)) + cw := by
      rcases min_cases (iw - cw) (pyInt ((fx : ℚ) + (fw : ℚ) / 2 - (cw : ℚ) / 2)) with
        ⟨hm, _⟩ | ⟨hm, _⟩ <;> omega
    omega

theorem faceClamp_y (fy fh ch hr iy : ℤ) (ih : ℕ) (hfy : 0 ≤ fy) (hfh : 0 ≤ fh)
    (hin : fy + fh ≤ (ih : ℤ)) (hfit : 23 * fh ≤ 18 * ch - 20) (hch10 : 10 ≤ ch)
    (hhr0 : 0 ≤ hr) (hhr : 20 * hr ≤ 3 * fh) :
    max 0 (min ((ih : ℤ) - ch)
      (if (iy : ℚ) < max 0 ((fy : ℚ) - (hr : ℚ) - (ch : ℚ) * (1/10)) then
        pyInt (max 0 ((fy : ℚ) - (hr : ℚ) - (ch : ℚ) * (1/10)))
      else if (iy : ℚ) > min ((ih : ℚ) - (ch : ℚ))
          ((fy : ℚ) + (fh : ℚ) - (ch : ℚ) * (9/10)) then
        pyInt (min ((ih : ℚ) - (ch : ℚ)) ((fy : ℚ) + (fh : ℚ) - (ch : ℚ) * (9/10)))
      else iy)) ≤ fy ∧
    fy + fh ≤
      max 0 (min ((ih : ℤ) - ch)
        (if (iy : ℚ) < max 0 ((fy : ℚ) - (hr : ℚ) - (ch : ℚ) * (1/10)) then
          pyInt (max 0 ((fy : ℚ) - (hr : ℚ) - (ch : ℚ) * (1/10)))
        else if (iy : ℚ) > min ((ih : ℚ) - (ch : ℚ))
            ((fy : ℚ) + (fh : ℚ) - (ch : ℚ) * (9/10)) then
          pyInt (min ((ih : ℚ) - (ch : ℚ)) ((fy : ℚ) + (fh : ℚ) - (ch : ℚ) * (9/10)))
        else iy)) + ch := by
  have hfyQ : (0 : ℚ) ≤ (fy : ℚ) := by exact_mod_cast hfy
  have hfhQ : (0 : ℚ) ≤ (fh : ℚ) := by exact_mod_cast hfh
  have hinQ : (fy : ℚ) + (fh : ℚ) ≤ ((ih : ℕ) : ℚ) := by exact_mod_cast hin
  have hfitQ : 23 * (fh : ℚ) ≤ 18 * (ch : ℚ) - 20 := by exact_mod_cast hfit
  have hch10Q : (10 : ℚ) ≤ (ch : ℚ) := by exact_mod_cast hch10
  have hhrQ : 20 * (hr : ℚ) ≤ 3 * (fh : ℚ) := by exact_mod_cast hhr
  have hhr0Q : (0 : ℚ) ≤ (hr : ℚ) := by exact_mod_cast hhr0
  have hsuf : ∀ v : ℤ, v ≤ fy → fy + fh - ch ≤ v →
      max 0 (min ((ih : ℤ) - ch) v) ≤ fy ∧
        fy + fh ≤ max 0 (min ((ih : ℤ) - ch) v) + ch := by
    intro v hv1 hv2
    omega
  have hMlb : (fy : ℚ) - (hr : ℚ) - (ch : ℚ) * (1/10) ≤
      max 0 ((fy : ℚ) - (hr : ℚ) - (ch : ℚ) * (1/10)) := le_max_right _ _
  have hNfy : min ((ih : ℚ) - (ch : ℚ)) ((fy : ℚ) + (fh : ℚ) - (ch : ℚ) * (9/10)) ≤
      (fy : ℚ) := le_trans (min_le_right _ _) (by linarith)
  split_ifs with h1 h2
  · refine hsuf _ ?_ ?_
    · have hM_le : max 0 ((fy : ℚ) - (hr : ℚ) - (ch : ℚ) * (1/10)) ≤ (fy : ℚ) :=
        max_le hfyQ (by linarith)
      exact_mod_cast le_trans (pyInt_le_max (max 0 ((fy : ℚ) - (hr : ℚ) - (ch : ℚ) * (1/10))))
        (max_le hfyQ hM_le)
    · refine le_pyInt_of_le ?_
      push_cast
      linarith
  · refine hsuf _ ?_ ?_
    · exact_mod_cast le_trans
        (pyInt_le_max (min ((ih : ℚ) - (ch : ℚ)) ((fy : ℚ) + (fh : ℚ) - (ch : ℚ) * (9/10))))
        (max_le hfyQ hNfy)
    · rcases le_total ((ih : ℚ) - (ch : ℚ)) ((fy : ℚ) + (fh : ℚ) - (ch : ℚ) * (9/10)) with
        hm | hm
      · rw [min_eq_left hm,
          show ((ih : ℚ) - (ch : ℚ)) = (((ih : ℤ) - ch : ℤ) : ℚ) from by push_cast; ring,
          pyInt_intCast]
        omega
      · rw [min_eq_right hm]
        have hlb := lt_pyInt_add_one ((fy : ℚ) + (fh : ℚ) - (ch : ℚ) * (9/10))
        have hx : ((fy + fh - ch : ℤ) : ℚ) <
            (pyInt ((fy : ℚ) + (fh : ℚ) - (ch : ℚ) * (9/10)) : ℚ) := by
          push_cast
          linarith
        exact_mod_cast le_of_lt hx
  · push_neg at h1 h2
    refine hsuf _ ?_ ?_
    · exact_mod_cast le_trans h2 hNfy
    · have hx : ((fy + fh - ch : ℤ) : ℚ) ≤ (iy : ℚ) := by
        refine le_trans ?_ (le_trans hMlb h1)
        push_cast
        linarith
      exact_mod_cast hx

theorem faceCrop_contains_single (f : Detection) (cw ch : ℤ) (iw ih : ℕ)
    (hbox : boxInImage f.box iw ih)
    (hfw : f.box.width + 2 ≤ cw)
    (hfh : 23 * f.box.height ≤ 18 * ch - 20)
    (hch10 : 10 ≤ ch) :
    (faceCrop f [] cw ch iw ih (3/20)).crop_box.x ≤ f.box.x ∧
    f.box.x + f.box.width ≤ (faceCrop f [] cw ch iw ih (3/20)).crop_box.x +
      (faceCrop f [] cw ch iw ih (3/20)).crop_box.width ∧
    (faceCrop f [] cw ch iw ih (3/20)).crop_box.y ≤ f.box.y ∧
    f.box.y + f.box.height ≤ (faceCrop f [] cw ch iw ih (3/20)).crop_box.y +
      (faceCrop f [] cw ch iw ih (3/20)).crop_box.height := by
  obtain ⟨hx0, hy0, hw0, hh0, hxw, hyh⟩ := hbox
  have hhQ : (0 : ℚ) ≤ (f.box.height : ℚ) := by exact_mod_cast hh0
  have hnn : (0 : ℚ) ≤ (f.box.height : ℚ) * (3/20) := by nlinarith
  have hhr0 : 0 ≤ pyInt ((f.box.height : ℚ) * (3/20)) := pyInt_nonneg hnn
  have hhr : 20 * pyInt ((f.box.height : ℚ) * (3/20)) ≤ 3 * f.box.height := by
    have h1 : (pyInt ((f.box.height : ℚ) * (3/20)) : ℚ) ≤ (f.box.height : ℚ) * (3/20) :=
      pyInt_le_of_nonneg hnn
    have h2 : ((20 * pyInt ((f.box.height : ℚ) * (3/20)) : ℤ) : ℚ) ≤
        ((3 * f.box.height : ℤ) : ℚ) := by
      push_cast
      linarith
    exact_mod_cast h2
  have hX := faceClamp_x f.box.x f.box.width cw (iw : ℤ) hx0 hxw hfw
  have hY := faceClamp_y f.box.y f.box.height ch
    (pyInt ((f.box.height : ℚ) * (3/20)))
    (pyInt ((f.box.y : ℚ) + (f.box.height : ℚ) / 2 -
      (pyInt ((f.box.height : ℚ) * (3/20)) : ℚ) - (ch : ℚ) / 2))
    ih hy0 hh0 hyh hfh hch10 hhr0 hhr
  exact ⟨hX.1, hX.2, hY.1, hY.2⟩

/-- C2 counterexample: with two faces in a 1000 × 500 image and a 1:1
target, the multi-face group centering places the crop at x = 240 while
the best face (`confidence * quality_score` maximiser, at x = 880, width
100) sticks out on the right: 880 + 100 = 980 > 240 + 500. The best
face's bounding box is not contained in the returned crop rectangle. -/
theorem c2_counterexample :
    ¬ ((calculate_smart_crop ((1 : ℚ), (1 : ℚ))
          [⟨⟨880, 200, 100, 100⟩, 1, 1⟩, ⟨⟨0, 200, 100, 100⟩, 1/2, 1/2⟩] []
          1000 500 (3/20)).crop_box.x ≤
        (pyMaxBy (fun f => f.quality_score * f.confidence)
          (⟨⟨880, 200, 100, 100⟩, 1, 1⟩ : Detection)
          [⟨⟨0, 200, 100, 100⟩, 1/2, 1/2⟩]).box.x ∧
      (pyMaxBy (fun f => f.quality_score * f.confidence)
          (⟨⟨880, 200, 100, 100⟩, 1, 1⟩ : Detection)
          [⟨⟨0, 200, 100, 100⟩, 1/2, 1/2⟩]).box.x +
        (pyMaxBy (fun f => f.quality_score * f.confidence)
          (⟨⟨880, 200, 100, 100⟩, 1, 1⟩ : Detection)
          [⟨⟨0, 200, 100, 100⟩, 1/2, 1/2⟩]).box.width ≤
        (calculate_smart_crop ((1 : ℚ), (1 : ℚ))
          [⟨⟨880, 200, 100, 100⟩, 1, 1⟩, ⟨⟨0, 200, 100, 100⟩, 1/2, 1/2⟩] []
          1000 500 (3/20)).crop_box.x +
        (calculate_smart_crop ((1 : ℚ), (1 : ℚ))
          [⟨⟨880, 200, 100, 100⟩, 1, 1⟩, ⟨⟨0, 200, 100, 100⟩, 1/2, 1/2⟩] []
          1000 500 (3/20)).crop_box.width) := by
  set_option maxRecDepth 8000 in with_unfolding_all decide

/-- C2 (amended): the best face's bounding box is fully contained in the
returned crop rectangle when there is exactly one face, its box lies
inside the image, and the face fits the maximal crop with the margins the
code reserves (width + 2 ≤ crop width, 23·height ≤ 18·crop height − 20,
crop height ≥ 10). The multi-face group centering (see the
counterexample) and oversized faces are excluded. -/
theorem c2_amended (aw ah : ℚ) (f : Detection) (iw ih : ℕ)
    (hbox : boxInImage f.box iw ih)
    (hfw : f.box.width + 2 ≤ (cropDims aw ah iw ih).1)
    (hfh : 23 * f.box.height ≤ 18 * (cropDims aw ah iw ih).2 - 20)
    (hch10 : 10 ≤ (cropDims aw ah iw ih).2) :
    (calculate_smart_crop (aw, ah) [f] [] iw ih (3/20)).crop_box.x ≤ f.box.x ∧
    f.box.x + f.box.width ≤
      (calculate_smart_crop (aw, ah) [f] [] iw ih (3/20)).crop_box.x +
        (calculate_smart_crop (aw, ah) [f] [] iw ih (3/20)).crop_box.width ∧
    (calculate_smart_crop (aw, ah) [f] [] iw ih (3/20)).crop_box.y ≤ f.box.y ∧
    f.box.y + f.box.height ≤
      (calculate_smart_crop (aw, ah) [f] [] iw ih (3/20)).crop_box.y +
        (calculate_smart_crop (aw, ah) [f] [] iw ih (3/20)).crop_box.height :=
  faceCrop_contains_single f (cropDims aw ah iw ih).1 (cropDims aw ah iw ih).2
    iw ih hbox hfw hfh hch10

/-- C2 amended witness: a single 50 × 50 face at (450, 200) in a
1000 × 500 image with a 1:1 target (crop 500 × 500). -/
theorem c2_amended_witness :
    boxInImage (⟨450, 200, 50, 50⟩ : Box) 1000 500 ∧
    (50 : ℤ) + 2 ≤ (cropDims 1 1 1000 500).1 ∧
    23 * (50 : ℤ) ≤ 18 * (cropDims 1 1 1000 500).2 - 20 ∧
    (10 : ℤ) ≤ (cropDims 1 1 1000 500).2 ∧
    ((calculate_smart_crop ((1 : ℚ), (1 : ℚ)) [⟨⟨450, 200, 50, 50⟩, 1, 1⟩] []
        1000 500 (3/20)).crop_box.x ≤ 450 ∧
      (450 : ℤ) + 50 ≤
        (calculate_smart_crop ((1 : ℚ), (1 : ℚ)) [⟨⟨450, 200, 50, 50⟩, 1, 1⟩] []
          1000 500 (3/20)).crop_box.x +
        (calculate_smart_crop ((1 : ℚ), (1 : ℚ)) [⟨⟨450, 200, 50, 50⟩, 1, 1⟩] []
          1000 500 (3/20)).crop_box.width) := by
  refine ⟨⟨by norm_num, by norm_num, by norm_num, by norm_num, by norm_num, by norm_num⟩,
    ?_, ?_, ?_, ?_⟩
  · with_unfolding_all decide
  · with_unfolding_all decide
  · with_unfolding_all decide
  · have h := c2_amended 1 1 ⟨⟨450, 200, 50, 50⟩, 1, 1⟩ 1000 500
      ⟨by norm_num, by norm_num, by norm_num, by norm_num, by norm_num, by norm_num⟩
      (by with_unfolding_all decide) (by with_unfolding_all decide)
      (by with_unfolding_all decide)
    exact ⟨h.1, h.2.1⟩
